import Mathlib

/-!
Verification of the defiads replication core (src/content.rs and
src/updater.rs) against its natural-language specification.

Shallow embedding conventions:
* Byte strings are lists of naturals, one entry per byte.
* Machine integers are naturals; wherever Rust wrapping or truncation
  matters the embedding takes the value modulo the corresponding power
  of two explicitly.
* Cryptographic primitives that live outside the two source files
  (single SHA-256 compression, the secp256k1 additive key tweak, and
  the consensus serialization of a full transaction) are parameters of
  the development, collected in the structure Env below.  Everything
  built from them (double SHA-256, txid, P2WSH script_pubkey, varint
  length prefixes, the script byte layout) is defined concretely from
  the source.
-/

/-- Byte strings: each list entry stands for one byte. -/
abbrev Bytes := List Nat

/-- The 36-byte IBLT element of content.rs: a 32-byte digest plus a u32
weight (struct ContentKey). -/
structure ContentKey where
  digest : Bytes
  weight : Nat
  deriving DecidableEq, Repr

/-- Componentwise XOR of two byte strings, mirroring
digest.iter_mut().zip(rhs.digest.iter()) in BitXorAssign for
ContentKey: entries of the left operand beyond the length of the right
operand are left unchanged, extra entries of the right operand are
ignored.  For the fixed 32-byte arrays of the source both lists have
length 32 and this is plain pointwise XOR. -/
def xorZip : Bytes → Bytes → Bytes
  | a, [] => a
  | [], _ => []
  | x :: a, y :: b => (x ^^^ y) :: xorZip a b

/-- BitXorAssign for ContentKey (content.rs lines 49-54): XOR the
weights and XOR the digests bytewise.  The Rust code mutates self; the
embedding returns the new value. -/
def ContentKey.bitxor_assign (a b : ContentKey) : ContentKey :=
  ⟨xorZip a.digest b.digest, a.weight ^^^ b.weight⟩

/-- The all-zero ContentKey, the XOR identity described by the spec. -/
def ContentKey.zero : ContentKey :=
  ⟨List.replicate 32 0, 0⟩

/-- Rust release-mode left shift on u16: the shift amount is masked by
the bit width and the result wraps modulo 2^16.  The source expression
term | (1 << 22) forces the literal 1 to type u16, and 1u16 << 22
overflows: rustc rejects the constant shift outright, and the masked
semantics used for non-constant operands would compute 1 <<< 6 = 64. -/
def rustMaskedShlU16 (a s : Nat) : Nat :=
  (a <<< (s % 16)) % 65536

/-- The three bytes the code pushes for the term (content.rs lines
146-147 and 152): LittleEndian::write_u16 of term | (1 << 22) into a
zero-initialized 4-byte buffer, then the slice buf[0..3].  Only the
first two bytes are ever written, so the third pushed byte is 0. -/
def term_encoded_code (term : Nat) : Bytes :=
  let v := (term ||| rustMaskedShlU16 1 22) % 65536
  [v % 256, v / 256 % 256, 0]

/-- Term encoding in the words of the spec: the low 3 bytes of
LittleEndian_u32(term | (1 << 22)), so the third byte always carries
bit 22 as 0x40. -/
def term_encoded_spec (term : Nat) : Bytes :=
  let v := (term ||| (1 <<< 22)) % 4294967296
  [v % 256, v / 256 % 256, v / 65536 % 256]

/-- Script opcode OP_CHECKSIGVERIFY. -/
def OP_CHECKSIGVERIFY : Nat := 173

/-- Script opcode OP_NOP3, which is OP_CHECKSEQUENCEVERIFY. -/
def OP_NOP3 : Nat := 178

/-- Builder::push_slice for data shorter than 76 bytes: a single
length byte followed by the data. -/
def pushSlice (bs : Bytes) : Bytes :=
  bs.length :: bs

/-- The witness script built by funding_script (content.rs lines
149-154): push of the tweaked public key bytes, OP_CHECKSIGVERIFY,
push of the 3-byte term encoding, OP_NOP3. -/
def witness_script (tweaked : Bytes) (term : Nat) : Bytes :=
  pushSlice tweaked ++ [OP_CHECKSIGVERIFY] ++ pushSlice (term_encoded_code term) ++ [OP_NOP3]

/-- A transaction output: a u64 value and a script_pubkey. -/
structure TxOut where
  value : Nat
  script_pubkey : Bytes
  deriving DecidableEq, Repr

/-- A Bitcoin transaction, restricted to the single field the two
source files inspect structurally: its output list.  The remaining
fields only enter through the abstract consensus serialization in
Env. -/
structure Transaction where
  output : List TxOut
  deriving DecidableEq, Repr

/-- External cryptographic and encoding primitives used by content.rs
but implemented outside the two source files: single SHA-256 over a
byte string, Bitcoin consensus serialization of a whole transaction,
and the secp256k1 additive tweak funder + digest * G returning the
serialized tweaked public key bytes. -/
structure Env where
  sha256E : Bytes → Bytes
  serializeTx : Transaction → Bytes
  tweakKey : Bytes → Bytes → Bytes

/-- Double SHA-256: sha256d::Hash::from_engine finalizes the sha256
engine and hashes the result once more. -/
def sha256d (E : Env) (x : Bytes) : Bytes :=
  E.sha256E (E.sha256E x)

/-- Transaction::bitcoin_hash, the txid: double SHA-256 of the
consensus serialization. -/
def txid (E : Env) (tx : Transaction) : Bytes :=
  sha256d E (E.serializeTx tx)

/-- Address::p2wsh(script).script_pubkey(): the version-0 witness
program OP_0 followed by a 32-byte push of SHA-256 of the witness
script. -/
def p2wsh_spk (E : Env) (script : Bytes) : Bytes :=
  0 :: 32 :: E.sha256E script

/-- funding_script of content.rs (lines 143-157): tweak the funder key
by the digest, build the witness script, and wrap it as a P2WSH
script_pubkey. -/
def funding_script (E : Env) (funder : Bytes) (d : Bytes) (term : Nat) : Bytes :=
  p2wsh_spk E (witness_script (E.tweakKey funder d) term)

/-- Bitcoin consensus VarInt encoding of a length. -/
def varint (n : Nat) : Bytes :=
  if n < 253 then [n % 256]
  else if n < 65536 then [253, n % 256, n / 256 % 256]
  else if n < 4294967296 then
    [254, n % 256, n / 256 % 256, n / 65536 % 256, n / 16777216 % 256]
  else
    [255, n % 256, n / 256 % 256, n / 65536 % 256, n / 16777216 % 256,
      n / 4294967296 % 256, n / 1099511627776 % 256, n / 281474976710656 % 256,
      n / 72057594037927936 % 256]

/-- Bitcoin consensus serialization of a raw byte array: VarInt length
prefix followed by the bytes. -/
def consensusSerBytes (bs : Bytes) : Bytes :=
  varint bs.length ++ bs

/-- The replicated unit of content.rs (struct Content). -/
structure Content where
  data : Bytes
  funding : Transaction
  block_id : Bytes
  spv_proof : List (Bool × Bytes)
  funder : Bytes
  term : Nat
  deriving DecidableEq, Repr

/-- Content::digest (content.rs lines 101-106): SHA-256 over the
consensus-serialized data bytes followed by the consensus-serialized
funder key bytes. -/
def Content.digest (c : Content) (E : Env) : Bytes :=
  E.sha256E (consensusSerBytes c.data ++ consensusSerBytes c.funder)

/-- Content::is_valid_spv_proof (content.rs lines 109-122): fold the
proof starting from the txid of the funding transaction; at every step
the sibling goes first when the flag is true, the accumulator first
otherwise, and the concatenation is double-SHA-256 hashed; finally
compare with the Merkle root. -/
def Content.is_valid_spv_proof (c : Content) (E : Env) (merkle_root : Bytes) : Bool :=
  (c.spv_proof.foldl
    (fun a p => if p.1 then sha256d E (p.2 ++ a) else sha256d E (a ++ p.2))
    (txid E c.funding)) == merkle_root

/-- Content::is_valid_funding (content.rs lines 125-128): some output
of the funding transaction carries exactly the reconstructed funding
script. -/
def Content.is_valid_funding (c : Content) (E : Env) : Bool :=
  c.funding.output.any
    (fun o => o.script_pubkey == funding_script E c.funder (c.digest E) c.term)

/-- Content::is_valid (content.rs lines 130-132). -/
def Content.is_valid (c : Content) (E : Env) (merkle_root : Bytes) : Bool :=
  c.is_valid_funding E && c.is_valid_spv_proof E merkle_root

/-- Content::weight (content.rs lines 134-140): the u64 sum of the
values of the outputs whose script_pubkey equals the funding script,
divided by the total record length as u64, truncated to u32.  The u64
sum wraps modulo 2^64 (release-mode semantics of sum over u64); the
cast of the length to u64 and the final cast to u32 are explicit
moduli. -/
def Content.weight (c : Content) (E : Env) : Nat :=
  ((c.funding.output.filterMap
      (fun o =>
        if o.script_pubkey == funding_script E c.funder (c.digest E) c.term then
          some o.value
        else none)).foldl (fun a v => (a + v) % 18446744073709551616) 0)
    / ((c.data.length + (E.serializeTx c.funding).length + c.spv_proof.length * 32)
        % 18446744073709551616)
    % 4294967296

/-- SPV folding in the words of the spec: accumulator initialized to
the txid; for each pair, concatenate with the sibling first when the
flag is true, with the accumulator first otherwise, and apply
double-SHA-256. -/
def spvFoldSpec (E : Env) : Bytes → List (Bool × Bytes) → Bytes
  | acc, [] => acc
  | acc, (left, sib) :: rest =>
      spvFoldSpec E (sha256d E (if left then sib ++ acc else acc ++ sib)) rest

/-- Sum of the values of the outputs whose script_pubkey equals the
reconstructed funding script, in the words of the spec. -/
def fundingSum (E : Env) (c : Content) : Nat :=
  ((c.funding.output.filter
      (fun o => o.script_pubkey == funding_script E c.funder (c.digest E) c.term)).map
    TxOut.value).sum

/-- The record length of the spec: len(data) + len(serialize(funding))
+ 32 * len(spv_proof). -/
def recordLen (E : Env) (c : Content) : Nat :=
  c.data.length + (E.serializeTx c.funding).length + 32 * c.spv_proof.length

/-- MINIMUM_IBLT_SIZE of updater.rs line 34. -/
def MINIMUM_IBLT_SIZE : Nat := 100

/-- MAXIMUM_IBLT_SIZE of updater.rs line 35. -/
def MAXIMUM_IBLT_SIZE : Nat := MINIMUM_IBLT_SIZE <<< 16

/-- Fueled form of the size selection loop of updater.rs lines 77-80:
while size < MAXIMUM_IBLT_SIZE and size < diff, size <<= 2.  Starting
from MINIMUM_IBLT_SIZE the loop body can run at most 8 times before
size reaches MAXIMUM_IBLT_SIZE, so any fuel of at least 9 realizes the
loop exactly; the exit lemma below proves the negated guard holds at
the returned value, i.e. the fuel is never exhausted. -/
def chooseIBLTSizeAux (diff : Nat) : Nat → Nat → Nat
  | 0, size => size
  | fuel + 1, size =>
      if size < MAXIMUM_IBLT_SIZE ∧ size < diff then
        chooseIBLTSizeAux diff fuel (size <<< 2)
      else size

/-- The IBLT cell count the updater chooses for an estimated
symmetric-difference size. -/
def chooseIBLTSize (diff : Nat) : Nat :=
  chooseIBLTSizeAux diff 9 MINIMUM_IBLT_SIZE

/-- A PollContent wire message (messages module): tip hash, min-sketch
bytes, and the number of keys the sketch summarizes. -/
structure PollContentMessage where
  tip : Bytes
  sketch : Bytes
  size : Nat
  deriving DecidableEq, Repr

/-- The four categories of expected replies tracked by the timeout
collaborator (p2p module). -/
inductive ExpectedReply where
  | pollContent
  | iblt
  | content
  | get
  deriving DecidableEq, Repr

/-- Observable interface effects of one updater step: calls into the
timeout tracker (received and expect) and outbound network sends.  A
sent IBLT is recorded by its tip and requested cell count, since its
cells come from the store collaborator. -/
inductive UAction where
  | received (cat : ExpectedReply) (n : Nat)
  | expect (cat : ExpectedReply) (n : Nat)
  | sendPoll (msg : PollContentMessage)
  | sendIBLT (tip : Bytes) (size : Nat)
  | sendGet (digests : List Bytes)
  deriving DecidableEq, Repr

/-- Updater::poll_content (updater.rs lines 153-167), for one peer.
The peer's slot in the poll_asked map enters as oldEntry and the new
slot value is returned next to the emitted actions: when the store has
a tip, a poll message is built from tip, sketch and key count, stored
in the map, sent, and a PollContent reply is expected; when the store
has no tip nothing at all happens. -/
def poll_content (oldEntry : Option PollContentMessage) (ourTip : Option Bytes)
    (sketch : Bytes) (nkeys : Nat) : Option PollContentMessage × List UAction :=
  match ourTip with
  | some tip =>
      (some ⟨tip, sketch, nkeys⟩,
        [UAction.sendPoll ⟨tip, sketch, nkeys⟩, UAction.expect ExpectedReply.pollContent 1])
  | none => (oldEntry, [])

/-- The Message::PollContent branch of Updater::run (updater.rs lines
65-91), for one peer.  entry is the peer's slot of poll_asked; the
branch removes it, and when it held a saved question the inbound poll
is a reply: the PollContent expectation is cleared, and only when the
store tip, the saved question's tip and the inbound tip all agree is
the diff estimated, an IBLT of the chosen size sent and an IBLT reply
expected.  Without a saved question the inbound poll is an initial
request and poll_content runs. -/
def handlePollContent (entry : Option PollContentMessage) (ourTip : Option Bytes)
    (sketch : Bytes) (nkeys : Nat) (estimate : Bytes → Nat → Bytes → Nat → Nat)
    (poll : PollContentMessage) : Option PollContentMessage × List UAction :=
  match entry with
  | some question =>
      match ourTip with
      | some our_tip =>
          if our_tip = question.tip ∧ question.tip = poll.tip then
            (none,
              [UAction.received ExpectedReply.pollContent 1,
                UAction.expect ExpectedReply.iblt 1,
                UAction.sendIBLT our_tip
                  (chooseIBLTSize
                    (estimate question.sketch question.size poll.sketch poll.size))])
          else (none, [UAction.received ExpectedReply.pollContent 1])
      | none => (none, [UAction.received ExpectedReply.pollContent 1])
  | none => poll_content none ourTip sketch nkeys

/-- Modelled from the spec: the entry type yielded by the IBLT
decoder of the iblt module, which is not among the given source files;
updater.rs consumes its Deleted variant and ignores the others, and
the spec describes the decoded entries as inserted or deleted keys. -/
inductive IBLTEntry where
  | inserted (key : ContentKey)
  | deleted (key : ContentKey)
  deriving DecidableEq, Repr

/-- The collection loop of the Message::IBLT branch (updater.rs lines
101-114) over the decode results of the subtracted IBLT, abstracted as
a list: an Ok Deleted entry contributes its digest to the request, an
Ok Inserted entry is skipped, and the first decode failure breaks out
of the loop, dropping everything after it. -/
def collectRequest : List (Option IBLTEntry) → List Bytes
  | [] => []
  | some (IBLTEntry.deleted key) :: rest => key.digest :: collectRequest rest
  | some (IBLTEntry.inserted _) :: rest => collectRequest rest
  | none :: _ => []

/-- The Message::IBLT branch of Updater::run (updater.rs lines
92-122): clear the IBLT expectation; when the store has a tip equal to
the message tip, run the collection loop over the decode results of
the subtracted IBLT, and if the collected request is non-empty expect
that many Content replies and send a Get with it. -/
def handleIBLT (ourTip : Option Bytes) (tip : Bytes)
    (decoded : List (Option IBLTEntry)) : List UAction :=
  UAction.received ExpectedReply.iblt 1 ::
    (match ourTip with
      | some our_tip =>
          if tip = our_tip then
            let request := collectRequest decoded
            if request.length > 0 then
              [UAction.expect ExpectedReply.content request.length, UAction.sendGet request]
            else []
          else []
      | none => [])

/-- Concrete environment used by closed witness and counterexample
statements: an arbitrary constant hash, a 10-byte transaction
serialization and a constant 33-byte tweaked key. -/
def E0 : Env :=
  ⟨fun _ => List.replicate 32 0, fun _ => List.replicate 10 9, fun _ _ => List.replicate 33 2⟩

/-- A funder key byte string used by concrete instances. -/
def funderW : Bytes := List.replicate 33 3

/-- Concrete content record for the weight witness: two data bytes, one
funding output of 1000 satoshi carrying the funding script, no SPV
path. -/
def cW : Content :=
  ⟨[1, 2], ⟨[⟨1000, funding_script E0 funderW (List.replicate 32 0) 1⟩]⟩, [], [], funderW, 1⟩

/-- The weight-witness content with one extra SPV proof step, for the
monotonicity witness. -/
def cW2 : Content :=
  ⟨[1, 2], ⟨[⟨1000, funding_script E0 funderW (List.replicate 32 0) 1⟩]⟩, [],
    [(false, List.replicate 32 7)], funderW, 1⟩

/-- Concrete content for the truncation counterexample: no data, a
single matching output worth 2^32 * 10 satoshi, no SPV path; its
record length under E0 is 10. -/
def cA : Content :=
  ⟨[], ⟨[⟨42949672960, funding_script E0 funderW (List.replicate 32 0) 0⟩]⟩, [], [], funderW, 0⟩

/-- cA with one extra SPV proof step: the record length grows from 10
to 42 while the matching output values stay fixed. -/
def cB : Content :=
  ⟨[], ⟨[⟨42949672960, funding_script E0 funderW (List.replicate 32 0) 0⟩]⟩, [],
    [(false, List.replicate 32 0)], funderW, 0⟩

/-- Concrete ContentKey for the decode-failure counterexample. -/
def exKey : ContentKey := ⟨List.replicate 32 5, 3⟩

/-- Concrete ContentKey for the decode-failure witness. -/
def exKey2 : ContentKey := ⟨List.replicate 32 6, 4⟩

theorem xorZip_cancel : ∀ (a b : Bytes), a.length = b.length → xorZip (xorZip a b) b = a
  | [], [], _ => rfl
  | x :: a, y :: b, h => by
      simp only [xorZip, Nat.xor_cancel_right, List.cons.injEq, true_and]
      exact xorZip_cancel a b (by simpa using h)

theorem xorZip_zero_right : ∀ (a : Bytes), xorZip a (List.replicate a.length 0) = a
  | [] => rfl
  | x :: a => by
      simp only [List.length_cons, List.replicate_succ, xorZip, Nat.xor_zero,
        List.cons.injEq, true_and]
      exact xorZip_zero_right a

theorem xorZip_comm : ∀ (a b : Bytes), a.length = b.length → xorZip a b = xorZip b a
  | [], [], _ => rfl
  | x :: a, y :: b, h => by
      simp only [xorZip, Nat.xor_comm x y, List.cons.injEq, true_and]
      exact xorZip_comm a b (by simpa using h)

theorem xorZip_assoc : ∀ (a b c : Bytes), a.length = b.length → b.length = c.length →
    xorZip (xorZip a b) c = xorZip a (xorZip b c)
  | [], [], [], _, _ => rfl
  | x :: a, y :: b, z :: c, hab, hbc => by
      simp only [xorZip, Nat.xor_assoc, List.cons.injEq, true_and]
      exact xorZip_assoc a b c (by simpa using hab) (by simpa using hbc)

/-- Claim C7: XOR-assign on ContentKey is an abelian group of exponent
two on both components: it cancels itself, the all-zero key is the
identity, and it is commutative and associative. -/
theorem contentKey_xor_group (a b c : ContentKey)
    (ha : a.digest.length = 32) (hb : b.digest.length = 32) (hc : c.digest.length = 32) :
    ContentKey.bitxor_assign (ContentKey.bitxor_assign a b) b = a ∧
    ContentKey.bitxor_assign a ContentKey.zero = a ∧
    ContentKey.bitxor_assign a b = ContentKey.bitxor_assign b a ∧
    ContentKey.bitxor_assign (ContentKey.bitxor_assign a b) c =
      ContentKey.bitxor_assign a (ContentKey.bitxor_assign b c) := by
  obtain ⟨ad, aw⟩ := a
  obtain ⟨bd, bw⟩ := b
  obtain ⟨cd, cw⟩ := c
  simp only [ContentKey.bitxor_assign, ContentKey.zero, ContentKey.mk.injEq] at *
  refine ⟨⟨?_, ?_⟩, ⟨?_, ?_⟩, ⟨?_, ?_⟩, ⟨?_, ?_⟩⟩
  · exact xorZip_cancel ad bd (ha.trans hb.symm)
  · exact Nat.xor_cancel_right bw aw
  · rw [← ha]
    exact xorZip_zero_right ad
  · exact Nat.xor_zero aw
  · exact xorZip_comm ad bd (ha.trans hb.symm)
  · exact Nat.xor_comm aw bw
  · exact xorZip_assoc ad bd cd (ha.trans hb.symm) (hb.trans hc.symm)
  · exact Nat.xor_assoc aw bw cw

/-- Witness for contentKey_xor_group at three concrete keys. -/
theorem contentKey_xor_group_witness :
    ContentKey.bitxor_assign
        (ContentKey.bitxor_assign ⟨List.replicate 32 1, 7⟩ ⟨List.replicate 32 4, 9⟩)
        ⟨List.replicate 32 4, 9⟩ = ⟨List.replicate 32 1, 7⟩ ∧
    ContentKey.bitxor_assign ⟨List.replicate 32 1, 7⟩ ContentKey.zero =
      ⟨List.replicate 32 1, 7⟩ ∧
    ContentKey.bitxor_assign ⟨List.replicate 32 1, 7⟩ ⟨List.replicate 32 4, 9⟩ =
      ContentKey.bitxor_assign ⟨List.replicate 32 4, 9⟩ ⟨List.replicate 32 1, 7⟩ ∧
    ContentKey.bitxor_assign
        (ContentKey.bitxor_assign ⟨List.replicate 32 1, 7⟩ ⟨List.replicate 32 4, 9⟩)
        ⟨List.replicate 32 8, 11⟩ =
      ContentKey.bitxor_assign ⟨List.replicate 32 1, 7⟩
        (ContentKey.bitxor_assign ⟨List.replicate 32 4, 9⟩ ⟨List.replicate 32 8, 11⟩) :=
  contentKey_xor_group ⟨List.replicate 32 1, 7⟩ ⟨List.replicate 32 4, 9⟩
    ⟨List.replicate 32 8, 11⟩ (by decide) (by decide) (by decide)

theorem spvFoldSpec_eq_foldl (E : Env) :
    ∀ (l : List (Bool × Bytes)) (acc : Bytes),
      l.foldl (fun a p => if p.1 then sha256d E (p.2 ++ a) else sha256d E (a ++ p.2)) acc =
        spvFoldSpec E acc l
  | [], acc => rfl
  | (left, sib) :: rest, acc => by
      simp only [List.foldl_cons, spvFoldSpec]
      rw [spvFoldSpec_eq_foldl E rest]
      congr 1
      by_cases h : left <;> simp [h]

/-- Claim C4: is_valid_spv_proof accepts a root exactly when folding
the proof from the txid of the funding transaction, hashing sibling
first on a true flag and accumulator first otherwise with double
SHA-256, ends in that root. -/
theorem is_valid_spv_proof_iff (E : Env) (c : Content) (root : Bytes) :
    c.is_valid_spv_proof E root = true ↔
      spvFoldSpec E (txid E c.funding) c.spv_proof = root := by
  rw [Content.is_valid_spv_proof, spvFoldSpec_eq_foldl, beq_iff_eq]

/-- Claim C5: is_valid holds exactly when both checks hold, the funding
check accepting precisely when some output of the funding transaction
carries the reconstructed funding script. -/
theorem is_valid_iff (E : Env) (c : Content) (root : Bytes) :
    c.is_valid E root = true ↔
      ((∃ o ∈ c.funding.output,
          o.script_pubkey = funding_script E c.funder (c.digest E) c.term) ∧
        spvFoldSpec E (txid E c.funding) c.spv_proof = root) := by
  rw [Content.is_valid, Bool.and_eq_true, Content.is_valid_funding, List.any_eq_true,
    Content.is_valid_spv_proof, spvFoldSpec_eq_foldl, beq_iff_eq]
  constructor
  · rintro ⟨⟨o, ho, hsc⟩, hr⟩
    exact ⟨⟨o, ho, beq_iff_eq.mp hsc⟩, hr⟩
  · rintro ⟨⟨o, ho, hsc⟩, hr⟩
    exact ⟨⟨o, ho, beq_iff_eq.mpr hsc⟩, hr⟩

theorem filterMap_if_eq_map_filter (p : TxOut → Bool) :
    ∀ (l : List TxOut),
      l.filterMap (fun o => if p o then some o.value else none) =
        (l.filter p).map TxOut.value
  | [] => rfl
  | o :: l => by
      by_cases h : p o <;>
        simp [List.filterMap_cons, List.filter_cons, h, filterMap_if_eq_map_filter p l]

theorem foldl_wrap_add (M : Nat) :
    ∀ (l : List Nat) (a : Nat),
      l.foldl (fun x v => (x + v) % M) (a % M) = (a + l.sum) % M
  | [], a => by simp
  | v :: l, a => by
      simp only [List.foldl_cons, List.sum_cons, Nat.mod_add_mod]
      rw [foldl_wrap_add M l (a + v), Nat.add_assoc]

theorem weight_eq (E : Env) (c : Content)
    (hS : fundingSum E c < 18446744073709551616)
    (hL : recordLen E c < 18446744073709551616)
    (hL0 : 0 < recordLen E c) :
    c.weight E = fundingSum E c / recordLen E c % 4294967296 := by
  have h0 : (0 : Nat) = 0 % 18446744073709551616 := rfl
  rw [Content.weight, filterMap_if_eq_map_filter, h0, foldl_wrap_add, Nat.zero_add]
  rw [show ((c.funding.output.filter fun o =>
        o.script_pubkey == funding_script E c.funder (c.digest E) c.term).map
          TxOut.value).sum = fundingSum E c from rfl]
  rw [show c.data.length + (E.serializeTx c.funding).length + c.spv_proof.length * 32 =
        recordLen E c by rw [recordLen]; ring]
  rw [Nat.mod_eq_of_lt hS, Nat.mod_eq_of_lt hL]

/-- Claim C6: the weight is the u64 sum of the matching output values,
divided by the combined record length with exact u64 integer division,
truncated to u32.  The hypotheses state that the u64 sum and length do
not wrap and that the record length is positive, which is where the
Rust division is defined. -/
theorem weight_eq_sum_div_len (E : Env) (c : Content)
    (hS : fundingSum E c < 18446744073709551616)
    (hL : recordLen E c < 18446744073709551616)
    (hL0 : 0 < recordLen E c) :
    c.weight E = fundingSum E c / recordLen E c % 4294967296 :=
  weight_eq E c hS hL hL0

/-- Witness for weight_eq_sum_div_len at the concrete record cW: the
single matching output is worth 1000 and the record length is 12, so
the weight is 83. -/
theorem weight_eq_sum_div_len_witness :
    fundingSum E0 cW < 18446744073709551616 ∧
    recordLen E0 cW < 18446744073709551616 ∧
    0 < recordLen E0 cW ∧
    cW.weight E0 = fundingSum E0 cW / recordLen E0 cW % 4294967296 ∧
    cW.weight E0 = 83 :=
  ⟨by decide, by decide, by decide,
    weight_eq_sum_div_len E0 cW (by decide) (by decide) (by decide), by decide⟩

/-- Claim C8 (amended): with the matching output values held fixed the
weight is non-increasing in the record length, provided the quotient
of the smaller record stays below 2^32 so that the truncation to u32
does not wrap.  The truncation counterexample below shows the guard is
necessary. -/
theorem weight_monotone (E : Env) (c1 c2 : Content)
    (hsum : fundingSum E c1 = fundingSum E c2)
    (hlen : recordLen E c1 ≤ recordLen E c2)
    (hS : fundingSum E c1 < 18446744073709551616)
    (hL2 : recordLen E c2 < 18446744073709551616)
    (hL1 : 0 < recordLen E c1)
    (hq : fundingSum E c1 / recordLen E c1 < 4294967296) :
    c2.weight E ≤ c1.weight E := by
  have hL2p : 0 < recordLen E c2 := Nat.lt_of_lt_of_le hL1 hlen
  have hL1b : recordLen E c1 < 18446744073709551616 := Nat.lt_of_le_of_lt hlen hL2
  rw [weight_eq E c1 hS hL1b hL1, weight_eq E c2 (hsum ▸ hS) hL2 hL2p, ← hsum]
  have hdiv : fundingSum E c1 / recordLen E c2 ≤ fundingSum E c1 / recordLen E c1 :=
    Nat.div_le_div_left hlen hL1
  rw [Nat.mod_eq_of_lt hq, Nat.mod_eq_of_lt (Nat.lt_of_le_of_lt hdiv hq)]
  exact hdiv

/-- Witness for weight_monotone: cW2 is cW with one more SPV step, the
record length grows from 12 to 44 and the weight drops from 83 to
22. -/
theorem weight_monotone_witness :
    fundingSum E0 cW = fundingSum E0 cW2 ∧
    recordLen E0 cW ≤ recordLen E0 cW2 ∧
    fundingSum E0 cW < 18446744073709551616 ∧
    recordLen E0 cW2 < 18446744073709551616 ∧
    0 < recordLen E0 cW ∧
    fundingSum E0 cW / recordLen E0 cW < 4294967296 ∧
    cW2.weight E0 ≤ cW.weight E0 :=
  ⟨by decide, by decide, by decide, by decide, by decide, by decide,
    weight_monotone E0 cW cW2 (by decide) (by decide) (by decide) (by decide)
      (by decide) (by decide)⟩

/-- Counterexample to claim C8 as stated: cB differs from cA only by
one extra SPV proof step and has the same matching output values, yet
its weight is strictly larger, because the untruncated quotient of cA
is exactly 2^32 and the cast to u32 wraps it to 0. -/
theorem weight_truncation_not_monotone :
    fundingSum E0 cA = fundingSum E0 cB ∧
    cA.data = cB.data ∧
    cA.funding = cB.funding ∧
    cB.spv_proof.length = cA.spv_proof.length + 1 ∧
    cA.weight E0 = 0 ∧
    cB.weight E0 = 1022611260 ∧
    cA.weight E0 < cB.weight E0 := by
  refine ⟨by decide, by decide, by decide, by decide, ?_, ?_, ?_⟩ <;> decide

/-- Claim C1 (code bug): the term push the code builds is not the low
3 bytes of LittleEndian_u32(term | (1 << 22)).  The source writes the
ored value through LittleEndian::write_u16, so only two buffer bytes
are ever filled and the third pushed byte is always 0, while the
expression 1u16 << 22 is a shift overflow (under masked-shift
semantics it sets bit 6 instead of bit 22).  At term 0 the code pushes
64, 0, 0 where the spec demands 0, 0, 64, and the witness script
carries that wrong push. -/
theorem funding_script_term_byte_bug :
    term_encoded_code 0 = [64, 0, 0] ∧
    term_encoded_spec 0 = [0, 0, 64] ∧
    term_encoded_code 0 ≠ term_encoded_spec 0 ∧
    term_encoded_code 1000 = [232, 3, 0] ∧
    term_encoded_spec 1000 = [232, 3, 64] ∧
    witness_script (List.replicate 33 2) 0 =
      pushSlice (List.replicate 33 2) ++ [OP_CHECKSIGVERIFY] ++
        pushSlice [64, 0, 0] ++ [OP_NOP3] := by
  refine ⟨?_, ?_, ?_, ?_, ?_, ?_⟩ <;> decide

theorem collectRequest_append_none :
    ∀ (pre post : List (Option IBLTEntry)),
      collectRequest (pre ++ none :: post) = collectRequest pre
  | [], _ => rfl
  | some (IBLTEntry.deleted key) :: rest, post =>
      congrArg (key.digest :: ·) (collectRequest_append_none rest post)
  | some (IBLTEntry.inserted _) :: rest, post =>
      collectRequest_append_none rest post
  | none :: _, _ => rfl

/-- Claim C2 (amended): a decode failure stops the collection loop, so
everything after the first failure is ignored and the handling of the
stream equals the handling of its prefix before the failure; but a Get
can still go out, and any Get sent carries exactly the digests decoded
before the failure and is non-empty. -/
theorem handleIBLT_decode_failure (our_tip : Bytes) (pre post : List (Option IBLTEntry)) :
    handleIBLT (some our_tip) our_tip (pre ++ none :: post) =
      handleIBLT (some our_tip) our_tip pre ∧
    ∀ g, UAction.sendGet g ∈ handleIBLT (some our_tip) our_tip (pre ++ none :: post) →
      g = collectRequest pre ∧ g ≠ [] := by
  constructor
  · simp only [handleIBLT, collectRequest_append_none]
  · intro g hg
    by_cases h : (collectRequest pre).length > 0
    · simp [handleIBLT, collectRequest_append_none, h] at hg
      exact ⟨hg, hg ▸ List.length_pos.mp h⟩
    · simp [handleIBLT, collectRequest_append_none, h] at hg

/-- Witness for handleIBLT_decode_failure: one deleted key decoded
before the failure, one entry after it. -/
theorem handleIBLT_decode_failure_witness :
    handleIBLT (some [2]) [2]
        ([some (IBLTEntry.deleted exKey2)] ++ none :: [some (IBLTEntry.inserted exKey2)]) =
      handleIBLT (some [2]) [2] [some (IBLTEntry.deleted exKey2)] ∧
    ([exKey2.digest] = collectRequest [some (IBLTEntry.deleted exKey2)] ∧
      ([exKey2.digest] : List Bytes) ≠ []) :=
  ⟨(handleIBLT_decode_failure [2] [some (IBLTEntry.deleted exKey2)]
      [some (IBLTEntry.inserted exKey2)]).1,
    (handleIBLT_decode_failure [2] [some (IBLTEntry.deleted exKey2)]
      [some (IBLTEntry.inserted exKey2)]).2 [exKey2.digest] (by decide)⟩

/-- Counterexample to claim C2 as stated: the decode stream holds a
failure, yet the updater sends a Get carrying the digest decoded
before the failure. -/
theorem iblt_decode_failure_still_sends_get :
    (none : Option IBLTEntry) ∈ [some (IBLTEntry.deleted exKey), (none : Option IBLTEntry)] ∧
    UAction.sendGet [exKey.digest] ∈
      handleIBLT (some [1]) [1] [some (IBLTEntry.deleted exKey), none] := by
  refine ⟨?_, ?_⟩ <;> decide

theorem chooseIBLTSizeAux_spec (diff : Nat) :
    ∀ (fuel j : Nat), j ≤ 8 → 9 ≤ fuel + j →
      ∃ k, j ≤ k ∧ k ≤ 8 ∧ chooseIBLTSizeAux diff fuel (100 * 4 ^ j) = 100 * 4 ^ k ∧
        ¬(100 * 4 ^ k < MAXIMUM_IBLT_SIZE ∧ 100 * 4 ^ k < diff)
  | 0, j, hj, hfuel => absurd hfuel (by omega)
  | fuel + 1, j, hj, hfuel => by
      rw [chooseIBLTSizeAux]
      by_cases h : 100 * 4 ^ j < MAXIMUM_IBLT_SIZE ∧ 100 * 4 ^ j < diff
      · have hmax : MAXIMUM_IBLT_SIZE = 100 * 4 ^ 8 := by decide
        have hjlt : j < 8 := by
          have h1 := h.1
          rw [hmax] at h1
          have h2 : (4 : Nat) ^ j < 4 ^ 8 := Nat.lt_of_mul_lt_mul_left h1
          exact (Nat.pow_lt_pow_iff_right (by omega)).mp h2
        have hshift : (100 * 4 ^ j) <<< 2 = 100 * 4 ^ (j + 1) := by
          rw [Nat.shiftLeft_eq, Nat.pow_succ]
          ring
        rw [if_pos h, hshift]
        obtain ⟨k, hk1, hk2, hk3, hk4⟩ :=
          chooseIBLTSizeAux_spec diff fuel (j + 1) (by omega) (by omega)
        exact ⟨k, by omega, hk2, hk3, hk4⟩
      · exact ⟨j, Nat.le_refl j, hj, if_neg h, h⟩

/-- Claim C3 (amended): whenever the estimated difference does not
exceed MAXIMUM_IBLT_SIZE, the chosen cell count is MINIMUM_IBLT_SIZE
times a power of four, at least the estimate and at most
MAXIMUM_IBLT_SIZE.  For estimates above MAXIMUM_IBLT_SIZE the loop
stops at MAXIMUM_IBLT_SIZE, below the estimate, as the counterexample
shows. -/
theorem chooseIBLTSize_bounds (diff : Nat) (h : diff ≤ MAXIMUM_IBLT_SIZE) :
    (∃ k, k ≤ 8 ∧ chooseIBLTSize diff = MINIMUM_IBLT_SIZE * 4 ^ k) ∧
    diff ≤ chooseIBLTSize diff ∧
    chooseIBLTSize diff ≤ MAXIMUM_IBLT_SIZE := by
  have hstart : MINIMUM_IBLT_SIZE = 100 * 4 ^ 0 := by decide
  have hmax : MAXIMUM_IBLT_SIZE = 100 * 4 ^ 8 := by decide
  obtain ⟨k, _, hk2, hk3, hk4⟩ := chooseIBLTSizeAux_spec diff 9 0 (by omega) (by omega)
  have hres : chooseIBLTSize diff = 100 * 4 ^ k := by
    rw [chooseIBLTSize, hstart]
    exact hk3
  have hle : chooseIBLTSize diff ≤ MAXIMUM_IBLT_SIZE := by
    rw [hres, hmax]
    exact Nat.mul_le_mul_left 100 (Nat.pow_le_pow_right (by omega) hk2)
  refine ⟨⟨k, hk2, by rw [hres]; rw [MINIMUM_IBLT_SIZE]⟩, ?_, hle⟩
  rw [← hres] at hk4
  omega

/-- Witness for chooseIBLTSize_bounds at the estimate 500 of the
spec's scenario: the chosen size is 1600 = 100 * 4 ^ 2. -/
theorem chooseIBLTSize_bounds_witness :
    500 ≤ MAXIMUM_IBLT_SIZE ∧
    ((∃ k, k ≤ 8 ∧ chooseIBLTSize 500 = MINIMUM_IBLT_SIZE * 4 ^ k) ∧
      500 ≤ chooseIBLTSize 500 ∧
      chooseIBLTSize 500 ≤ MAXIMUM_IBLT_SIZE) ∧
    chooseIBLTSize 500 = 1600 :=
  ⟨by decide, chooseIBLTSize_bounds 500 (by decide), by decide⟩

/-- Counterexample to claim C3 as stated: for an estimated difference
of MAXIMUM_IBLT_SIZE + 1 the loop stops at MAXIMUM_IBLT_SIZE, which is
strictly below the estimate. -/
theorem chooseIBLTSize_above_max :
    chooseIBLTSize (MAXIMUM_IBLT_SIZE + 1) = MAXIMUM_IBLT_SIZE ∧
    ¬(MAXIMUM_IBLT_SIZE + 1 ≤ chooseIBLTSize (MAXIMUM_IBLT_SIZE + 1)) := by
  refine ⟨?_, ?_⟩ <;> decide

/-- Claim C9: after a poll reply, an IBLT goes out, and an IBLT reply
is expected, exactly when the store tip exists and agrees with both
the saved question's tip and the inbound poll's tip. -/
theorem poll_reply_needs_tip_agreement (question poll : PollContentMessage)
    (ourTip : Option Bytes) (sketch : Bytes) (nkeys : Nat)
    (estimate : Bytes → Nat → Bytes → Nat → Nat) :
    ((∃ t s, UAction.sendIBLT t s ∈
        (handlePollContent (some question) ourTip sketch nkeys estimate poll).2) ↔
      (ourTip = some question.tip ∧ question.tip = poll.tip)) ∧
    ((∃ n, UAction.expect ExpectedReply.iblt n ∈
        (handlePollContent (some question) ourTip sketch nkeys estimate poll).2) ↔
      (ourTip = some question.tip ∧ question.tip = poll.tip)) := by
  cases ourTip with
  | none => simp [handlePollContent]
  | some t =>
      by_cases h : t = question.tip ∧ question.tip = poll.tip <;>
        simp [handlePollContent, h]

/-- Claim C10: with no store tip, poll_content changes nothing: no
message is sent, no expectation recorded, and the poll_asked slot is
left untouched; the initial-inbound-poll path of the dispatcher is
equally silent. -/
theorem poll_content_no_tip_noop (entry : Option PollContentMessage)
    (sketch : Bytes) (nkeys : Nat) (estimate : Bytes → Nat → Bytes → Nat → Nat)
    (poll : PollContentMessage) :
    poll_content entry none sketch nkeys = (entry, []) ∧
    handlePollContent none none sketch nkeys estimate poll = (none, []) :=
  ⟨rfl, rfl⟩
